import Mathlib

/-!
Verification of the firmware-registry core: the access gate
(`internal/auth/auth.go`) and the webhook delivery engine
(`internal/webhook`), together with the webhook create handler
(`internal/api/handlers/webhooks.go`).

The Go code is shallowly embedded: machine integers are `Nat`/`Int` with
explicit wrap-around where it matters, byte slices are `List Nat`
(each entry a byte value), fallible operations return `Option`/`Except`,
and the HTTP side effects of a handler are reified as result values
(which handler branch ran, which requests a delivery worker issued).
-/

namespace FwReg

/-! ## Go `net` package model: IP addresses, parsing, subnets

`net.IP` is a byte slice of length 4 or 16.  `net.ParseIP` yields the
16-byte IPv4-in-IPv6 form for dotted-quad inputs; we represent that form
by the constructor `GoIP.v4` and raw 16-byte addresses by `GoIP.v6`, and
translate `IP.Equal`, `IP.To4` and `IPNet.Contains` under that mapping. -/

/-- A parsed IP address.  `v4 a b c d` stands for the 16-byte
IPv4-in-IPv6 slice `::ffff:a.b.c.d` that `net.ParseIP` returns for
dotted-quad input; `v6 bytes` is a raw 16-byte IPv6 address. -/
inductive GoIP where
  | v4 (a b c d : Nat)
  | v6 (bytes : List Nat)
deriving DecidableEq, Repr

/-- The 12-byte prefix of an IPv4-mapped IPv6 address (`::ffff:`). -/
def v4InV6Prefix : List Nat := [0, 0, 0, 0, 0, 0, 0, 0, 0, 0, 255, 255]

/-- The byte-slice contents of an address (16 bytes either way). -/
def GoIP.bytes : GoIP → List Nat
  | .v4 a b c d => v4InV6Prefix ++ [a, b, c, d]
  | .v6 bs => bs

/-- `net.IP.Equal`: byte-wise equality, with 4-byte/16-byte cross-family
comparison via the IPv4-mapped prefix.  Under our representation both
sides are 16-byte slices, so it is equality of `bytes`. -/
def ipEqual (x y : GoIP) : Bool :=
  x.bytes == y.bytes

/-- `net.IP.To4`: the 4-byte form when the address is IPv4 or
IPv4-mapped, else `none` (Go: nil). -/
def GoIP.to4 : GoIP → Option (List Nat)
  | .v4 a b c d => some [a, b, c, d]
  | .v6 bs =>
    if bs.length == 16 && bs.take 12 == v4InV6Prefix then some (bs.drop 12)
    else none

/-- Raw-byte variant of `To4` used for the network number of a subnet
(`net.ParseCIDR` stores 4-byte network numbers for IPv4 CIDRs). -/
def to4Bytes (bs : List Nat) : Option (List Nat) :=
  if bs.length == 4 then some bs
  else if bs.length == 16 && bs.take 12 == v4InV6Prefix then some (bs.drop 12)
  else none

/-- `net.IPNet`: network number and mask, stored as byte slices. -/
structure IPNet where
  network : List Nat
  mask : List Nat
deriving DecidableEq, Repr

/-- `net.networkNumberAndMask`: canonicalise the network number to its
4-byte form when possible and align the mask length; `none` models the
nil, nil return for malformed nets. -/
def networkNumberAndMask (n : IPNet) : Option (List Nat × List Nat) :=
  let ip? : Option (List Nat) :=
    match to4Bytes n.network with
    | some b => some b
    | none => if n.network.length == 16 then some n.network else none
  match ip? with
  | none => none
  | some ip =>
    if n.mask.length == 4 then
      if ip.length == 4 then some (ip, n.mask) else none
    else if n.mask.length == 16 then
      if ip.length == 4 then some (ip, n.mask.drop 12) else some (ip, n.mask)
    else none

/-- The masked byte-wise comparison loop inside `IPNet.Contains`. -/
def maskedEqBytes : List Nat → List Nat → List Nat → Bool
  | nn :: ns, m :: ms, ib :: ibs =>
    (Nat.land nn m == Nat.land ib m) && maskedEqBytes ns ms ibs
  | _, _, _ => true

/-- `net.IPNet.Contains`. -/
def ipnetContains (n : IPNet) (ip : GoIP) : Bool :=
  match networkNumberAndMask n with
  | none => false
  | some (nn, m) =>
    let ipb := match ip.to4 with
      | some b => b
      | none => ip.bytes
    ipb.length == nn.length && maskedEqBytes nn m ipb

/-! ### Textual IP parsing (`net.ParseIP`) -/

/-- Split on a single-character separator (`strings.Split` with a
one-character separator), accumulating the current field reversed. -/
def splitOnCharAux (sep : Char) : List Char → List Char → List (List Char)
  | [], acc => [acc.reverse]
  | c :: cs, acc =>
    if c == sep then acc.reverse :: splitOnCharAux sep cs []
    else splitOnCharAux sep cs (c :: acc)

/-- Split on a single-character separator. -/
def splitOnChar (sep : Char) (cs : List Char) : List (List Char) :=
  splitOnCharAux sep cs []

/-- Split on the two-character separator `::` (leftmost,
non-overlapping), as `strings.Split(s, "::")` does. -/
def splitOnDoubleColonAux : List Char → List Char → List (List Char)
  | [], acc => [acc.reverse]
  | ':' :: ':' :: cs, acc => acc.reverse :: splitOnDoubleColonAux cs []
  | c :: cs, acc => splitOnDoubleColonAux cs (c :: acc)

/-- Split on `::`. -/
def splitOnDoubleColon (cs : List Char) : List (List Char) :=
  splitOnDoubleColonAux cs []

/-- Decimal digit value, or `none`. -/
def digitVal (c : Char) : Option Nat :=
  if c.toNat ≥ 48 ∧ c.toNat ≤ 57 then some (c.toNat - 48) else none

/-- Fold decimal digits into a value; any non-digit fails. -/
def decimalAux : List Char → Nat → Option Nat
  | [], acc => some acc
  | c :: cs, acc =>
    match digitVal c with
    | none => none
    | some d => decimalAux cs (acc * 10 + d)

/-- One dotted-quad field: 1–3 decimal digits, value ≤ 255, no leading
zero (Go rejects leading zeros in IP literals). -/
def parseV4Field (cs : List Char) : Option Nat :=
  if cs.length == 0 || cs.length > 3 then none
  else if cs.head? == some '0' && cs.length > 1 then none
  else
    match decimalAux cs 0 with
    | none => none
    | some v => if v ≤ 255 then some v else none

/-- `net.parseIPv4`: exactly four dot-separated fields. -/
def parseIPv4 (cs : List Char) : Option (Nat × Nat × Nat × Nat) :=
  match (splitOnChar '.' cs).map parseV4Field with
  | [some a, some b, some c, some d] => some (a, b, c, d)
  | _ => none

/-- Hex digit value, or `none`. -/
def hexVal (c : Char) : Option Nat :=
  if c.toNat ≥ 48 ∧ c.toNat ≤ 57 then some (c.toNat - 48)
  else if c.toNat ≥ 97 ∧ c.toNat ≤ 102 then some (c.toNat - 87)
  else if c.toNat ≥ 65 ∧ c.toNat ≤ 70 then some (c.toNat - 55)
  else none

/-- Fold hex digits into a value; any non-hex-digit fails. -/
def hexAux : List Char → Nat → Option Nat
  | [], acc => some acc
  | c :: cs, acc =>
    match hexVal c with
    | none => none
    | some d => hexAux cs (acc * 16 + d)

/-- One IPv6 group: 1–4 hex digits. -/
def parseHexGroup (cs : List Char) : Option Nat :=
  if cs.length == 0 || cs.length > 4 then none
  else hexAux cs 0

/-- Parse colon-separated IPv6 groups into bytes; when `allowV4` the
final group may be a dotted IPv4 quad (occupying the last 32 bits). -/
def parseV6Groups : List (List Char) → Bool → Option (List Nat)
  | [], _ => some []
  | [g], allowV4 =>
    if allowV4 && g.contains '.' then
      match parseIPv4 g with
      | some (a, b, c, d) => some [a, b, c, d]
      | none => none
    else (parseHexGroup g).map (fun v => [v / 256, v % 256])
  | g :: gs, allowV4 =>
    match parseHexGroup g with
    | none => none
    | some v => (parseV6Groups gs allowV4).map (fun rest => v / 256 :: v % 256 :: rest)

/-- `net.parseIPv6`: full 8-group form, or a single `::` abbreviation
standing for at least one zero group, with an optional dotted-IPv4 tail. -/
def parseIPv6 (cs : List Char) : Option (List Nat) :=
  match splitOnDoubleColon cs with
  | [whole] =>
    match parseV6Groups (splitOnChar ':' whole) true with
    | some bs => if bs.length == 16 then some bs else none
    | none => none
  | [l, r] =>
    let lparts := if l.isEmpty then [] else splitOnChar ':' l
    let rparts := if r.isEmpty then [] else splitOnChar ':' r
    match parseV6Groups lparts false, parseV6Groups rparts true with
    | some lb, some rb =>
      if lb.length + rb.length ≤ 14 then
        some (lb ++ List.replicate (16 - lb.length - rb.length) 0 ++ rb)
      else none
    | _, _ => none
  | _ => none

/-- First `.` or `:` in the string decides the address family
(the scan loop at the top of `net.ParseIP`). -/
def firstDotOrColon : List Char → Option Char
  | [] => none
  | c :: cs => if c == '.' || c == ':' then some c else firstDotOrColon cs

/-- `net.ParseIP`. -/
def parseIP (s : String) : Option GoIP :=
  match firstDotOrColon s.toList with
  | none => none
  | some c =>
    if c == '.' then (parseIPv4 s.toList).map (fun q => GoIP.v4 q.1 q.2.1 q.2.2.1 q.2.2.2)
    else if c == ':' then (parseIPv6 s.toList).map GoIP.v6
    else none

/-! ### `net.SplitHostPort` -/

/-- Index of the first occurrence of a character. -/
def idxOf (c : Char) : List Char → Option Nat
  | [] => none
  | x :: xs =>
    if x == c then some 0
    else (idxOf c xs).map (· + 1)

/-- Index of the last occurrence of a character. -/
def lastIdxOf (c : Char) (cs : List Char) : Option Nat :=
  match idxOf c cs.reverse with
  | none => none
  | some i => some (cs.length - 1 - i)

/-- `net.SplitHostPort`: split `host:port`, handling the bracketed
IPv6 form `[host]:port`; `none` models the error return. -/
def splitHostPort (hostport : String) : Option (String × String) :=
  let cs := hostport.toList
  match lastIdxOf ':' cs with
  | none => none
  | some i =>
    if cs.head? == some '[' then
      match idxOf ']' cs with
      | none => none
      | some e =>
        if e + 1 == cs.length then none
        else if e + 1 != i then none
        else if (cs.drop 1).contains '[' || (cs.drop (e + 1)).contains ']' then none
        else some (((cs.drop 1).take (e - 1)).asString, (cs.drop (i + 1)).asString)
    else
      let host := cs.take i
      if host.contains ':' then none
      else if cs.contains '[' || cs.contains ']' then none
      else some (host.asString, (cs.drop (i + 1)).asString)

/-- The host `isIPWhitelisted` feeds to `net.ParseIP`: the host part of
`remoteAddr` when `SplitHostPort` succeeds, the whole string otherwise. -/
def whitelistHost (remoteAddr : String) : String :=
  match splitHostPort remoteAddr with
  | some hp => hp.1
  | none => remoteAddr

/-! ## Access gate (`internal/auth/auth.go`) -/

/-- The role-claim structure of a verified ID token: a realm-level role
list and per-client role lists (spec §4.2 step 4). -/
structure IDToken where
  realmRoles : Option (List String)
  resourceRoles : List (String × List String)
deriving DecidableEq, Repr

/-- Modelled from the spec: the body of `OIDCVerifier.HasRole` is not in
the sources (only its caller `verifyJWT` is).  Per spec §4.2 step 4 the
role search checks the realm-level list and every per-client list,
tolerating any location being absent, and fails only after all
locations are exhausted. -/
def hasRoleSpec (t : IDToken) (requiredRole : String) : Bool :=
  (match t.realmRoles with
   | some rs => rs.contains requiredRole
   | none => false)
  || t.resourceRoles.any (fun p => p.2.contains requiredRole)

/-- `auth.OIDCVerifier`: the configured role names, with the remote
token verification (`VerifyToken`, signature/issuer/audience/expiry
against fetched key material) abstracted as an oracle returning the
verified token's claims or `none` on any verification error. -/
structure OIDCVerifier where
  adminRole : String
  deviceRole : String
  verifyToken : String → Option IDToken

/-- `auth.Auth`. -/
structure Auth where
  adminKey : String
  deviceKey : String
  noAuthIPs : List GoIP
  noAuthSubnets : List IPNet
  oidcEnabled : Bool
  oidcVerifier : Option OIDCVerifier

/-- An inbound request as the gate sees it: peer address and headers. -/
structure Request where
  remoteAddr : String
  headers : List (String × String)

/-- `http.Header.Get`: first value for the key, `""` when absent. -/
def headerGet (hs : List (String × String)) (k : String) : String :=
  match hs.find? (fun p => p.1 == k) with
  | some p => p.2
  | none => ""

/-- ASCII lower-casing of one character.  `strings.ToLower` is
Unicode-aware, but no non-ASCII character lower-cases into the letters
of `"bearer"`, so for the comparison below ASCII folding is equivalent. -/
def asciiLower (c : Char) : Char :=
  if c.toNat ≥ 65 ∧ c.toNat ≤ 90 then Char.ofNat (c.toNat + 32) else c

/-- `auth.ExtractBearerToken`: split on spaces; the token is the second
of exactly two fields when the first is `bearer` case-insensitively. -/
def ExtractBearerToken (authHeader : String) : String :=
  match splitOnChar ' ' authHeader.toList with
  | [p0, p1] => if (p0.map asciiLower).asString == "bearer" then p1.asString else ""
  | _ => ""

/-- `Auth.isIPWhitelisted`. -/
def isIPWhitelisted (a : Auth) (remoteAddr : String) : Bool :=
  if a.noAuthIPs.isEmpty && a.noAuthSubnets.isEmpty then false
  else
    match parseIP (whitelistHost remoteAddr) with
    | none => false
    | some clientIP =>
      if a.noAuthIPs.any (fun allowedIP => ipEqual clientIP allowedIP) then true
      else a.noAuthSubnets.any (fun subnet => ipnetContains subnet clientIP)

/-- `Auth.verifyJWT` for a non-nil verifier `v` (the caller checks
`OIDCVerifier != nil` before entering this path). -/
def verifyJWT (v : OIDCVerifier) (r : Request) (requiredRole : String) : Bool :=
  let authHeader := headerGet r.headers "Authorization"
  if authHeader == "" then false
  else
    let token := ExtractBearerToken authHeader
    if token == "" then false
    else
      match v.verifyToken token with
      | none => false
      | some idToken =>
        let hasRole := hasRoleSpec idToken requiredRole
        if !hasRole && requiredRole != "" then false
        else true

/-- The JWT strategy as guarded in `RequireAdmin`: only when OIDC is
enabled and a verifier is present. -/
def adminJWTOk (a : Auth) (r : Request) : Bool :=
  match a.oidcVerifier with
  | some v => a.oidcEnabled && verifyJWT v r v.adminRole
  | none => false

/-- The JWT strategy as guarded in `RequireDevice`. -/
def deviceJWTOk (a : Auth) (r : Request) : Bool :=
  match a.oidcVerifier with
  | some v => a.oidcEnabled && verifyJWT v r v.deviceRole
  | none => false

/-- What the gate wrapper did with the request: invoked the protected
handler, or wrote `401 Unauthorized` without invoking it. -/
inductive GateResult where
  | next
  | unauthorized
deriving DecidableEq, Repr

/-- `Auth.RequireAdmin`: IP allowlist, then JWT (when enabled), then the
`X-Admin-Key` header, first success invoking the protected handler. -/
def RequireAdmin (a : Auth) (r : Request) : GateResult :=
  if isIPWhitelisted a r.remoteAddr then .next
  else if adminJWTOk a r then .next
  else if a.adminKey != "" && headerGet r.headers "X-Admin-Key" == a.adminKey then .next
  else .unauthorized

/-- `Auth.RequireDevice`. -/
def RequireDevice (a : Auth) (r : Request) : GateResult :=
  if isIPWhitelisted a r.remoteAddr then .next
  else if deviceJWTOk a r then .next
  else if a.deviceKey != "" && headerGet r.headers "X-Device-Key" == a.deviceKey then .next
  else .unauthorized

/-! ## Webhook data model (`internal/webhook/models.go`) -/

/-- `webhook.Webhook` (the DB entity). -/
structure Webhook where
  id : Int
  url : String
  events : List String
  enabled : Bool
deriving DecidableEq, Repr

/-- `webhook.WebhookDTO` (the API wire form). -/
structure WebhookDTO where
  id : Int
  url : String
  events : List String
  enabled : Bool
deriving DecidableEq, Repr

/-- `webhook.EventPayload`; the domain payload is opaque (`any`). -/
structure EventPayload (α : Type) where
  event : String
  data : α
  time : String

/-- `webhook.contains`. -/
def contains : List String → String → Bool
  | [], _ => false
  | x :: xs, v => if x == v then true else contains xs v

/-! ## SHA-256, HMAC and hex (`crypto/sha256`, `crypto/hmac`,
`encoding/hex` as used by `webhook.hmacHex`) -/

/-- Truncate to a 32-bit word. -/
def w32 (n : Nat) : Nat := n % 4294967296

/-- 32-bit rotate right. -/
def rotr32 (x n : Nat) : Nat :=
  w32 ((x >>> n) ||| (x <<< (32 - n)))

/-- SHA-256 round constant table (FIPS 180-4, written in decimal). -/
def shaK : List Nat :=
  [1116352408, 1899447441, 3049323471, 3921009573, 961987163,
   1508970993, 2453635748, 2870763221, 3624381080, 310598401,
   607225278, 1426881987, 1925078388, 2162078206, 2614888103,
   3248222580, 3835390401, 4022224774, 264347078, 604807628,
   770255983, 1249150122, 1555081692, 1996064986, 2554220882,
   2821834349, 2952996808, 3210313671, 3336571891, 3584528711,
   113926993, 338241895, 666307205, 773529912, 1294757372,
   1396182291, 1695183700, 1986661051, 2177026350, 2456956037,
   2730485921, 2820302411, 3259730800, 3345764771, 3516065817,
   3600352804, 4094571909, 275423344, 430227734, 506948616,
   659060556, 883997877, 958139571, 1322822218, 1537002063,
   1747873779, 1955562222, 2024104815, 2227730452, 2361852424,
   2428436474, 2756734187, 3204031479, 3329325298]

/-- SHA-256 initial hash value (FIPS 180-4, written in decimal). -/
def shaH0 : List Nat :=
  [1779033703, 3144134277, 1013904242, 2773480762,
   1359893119, 2600822924, 528734635, 1541459225]

/-- Pad a byte message: append `0x80`, zeros to 56 mod 64, then the
bit length as 8 big-endian bytes. -/
def sha256Pad (msg : List Nat) : List Nat :=
  let len := msg.length
  let bitLen := len * 8
  let padZeros := (119 - len % 64) % 64
  let lenBytes := [bitLen / 72057594037927936 % 256, bitLen / 281474976710656 % 256,
                   bitLen / 1099511627776 % 256, bitLen / 4294967296 % 256,
                   bitLen / 16777216 % 256, bitLen / 65536 % 256,
                   bitLen / 256 % 256, bitLen % 256]
  msg ++ [128] ++ List.replicate padZeros 0 ++ lenBytes

/-- Split into 64-byte blocks. -/
def chunks64 (l : List Nat) : List (List Nat) :=
  if h : l = [] then []
  else l.take 64 :: chunks64 (l.drop 64)
termination_by l.length
decreasing_by
  simp only [List.length_drop]
  exact Nat.sub_lt (List.length_pos.mpr h) (by omega)

/-- Big-endian bytes → 32-bit words (groups of four). -/
def bytesToWords : List Nat → List Nat
  | a :: b :: c :: d :: rest =>
    (a * 16777216 + b * 65536 + c * 256 + d) :: bytesToWords rest
  | _ => []

/-- 32-bit words → big-endian bytes. -/
def wordsToBytes (ws : List Nat) : List Nat :=
  (ws.map (fun w => [w / 16777216 % 256, w / 65536 % 256, w / 256 % 256, w % 256])).flatten

/-- Extend the 16-word message schedule by `n` more words. -/
def extendSchedule (w : List Nat) : Nat → List Nat
  | 0 => w
  | n + 1 =>
    let len := w.length
    let w15 := w.getD (len - 15) 0
    let w2 := w.getD (len - 2) 0
    let s0 := rotr32 w15 7 ^^^ rotr32 w15 18 ^^^ (w15 >>> 3)
    let s1 := rotr32 w2 17 ^^^ rotr32 w2 19 ^^^ (w2 >>> 10)
    extendSchedule (w ++ [w32 (w.getD (len - 16) 0 + s0 + w.getD (len - 7) 0 + s1)]) n

/-- One SHA-256 compression round over state `[a,b,c,d,e,f,g,h]`. -/
def shaRound (st : List Nat) (kw : Nat × Nat) : List Nat :=
  match st with
  | [a, b, c, d, e, f, g, h] =>
    let s1 := rotr32 e 6 ^^^ rotr32 e 11 ^^^ rotr32 e 25
    let ch := (e &&& f) ^^^ ((e ^^^ 4294967295) &&& g)
    let temp1 := w32 (h + s1 + ch + kw.1 + kw.2)
    let s0 := rotr32 a 2 ^^^ rotr32 a 13 ^^^ rotr32 a 22
    let maj := (a &&& b) ^^^ (a &&& c) ^^^ (b &&& c)
    let temp2 := w32 (s0 + maj)
    [w32 (temp1 + temp2), a, b, c, w32 (d + temp1), e, f, g]
  | _ => st

/-- Compress one 64-byte block into the running hash. -/
def sha256Compress (hash : List Nat) (block : List Nat) : List Nat :=
  let w := extendSchedule (bytesToWords block) 48
  let st := (shaK.zip w).foldl shaRound hash
  (hash.zip st).map (fun p => w32 (p.1 + p.2))

/-- SHA-256 of a byte message. -/
def sha256 (msg : List Nat) : List Nat :=
  wordsToBytes ((chunks64 (sha256Pad msg)).foldl sha256Compress shaH0)

/-- HMAC-SHA256 (`crypto/hmac` with `sha256.New`, block size 64). -/
def hmacSha256 (key msg : List Nat) : List Nat :=
  let k1 := if key.length > 64 then sha256 key else key
  let k2 := k1 ++ List.replicate (64 - k1.length) 0
  let ipad := k2.map (fun b => b ^^^ 54)
  let opad := k2.map (fun b => b ^^^ 92)
  sha256 (opad ++ sha256 (ipad ++ msg))

/-- Lower-case hex digit. -/
def hexDigit (n : Nat) : Char :=
  if n < 10 then Char.ofNat (48 + n) else Char.ofNat (87 + n)

/-- `hex.EncodeToString`. -/
def hexEncode (bs : List Nat) : String :=
  ((bs.map (fun b => [hexDigit (b / 16), hexDigit (b % 16)])).flatten).asString

/-- UTF-8 encoding of one character (Go strings are UTF-8 bytes). -/
def utf8EncodeChar (c : Char) : List Nat :=
  let n := c.toNat
  if n < 128 then [n]
  else if n < 2048 then [192 + n / 64, 128 + n % 64]
  else if n < 65536 then [224 + n / 4096, 128 + n / 64 % 64, 128 + n % 64]
  else [240 + n / 262144, 128 + n / 4096 % 64, 128 + n / 64 % 64, 128 + n % 64]

/-- The byte contents of a Go string. -/
def strBytes (s : String) : List Nat :=
  (s.toList.map utf8EncodeChar).flatten

/-- `webhook.hmacHex`. -/
def hmacHex (secret data : List Nat) : String :=
  hexEncode (hmacSha256 secret data)

/-! ## Webhook dispatch and delivery (`internal/webhook/service.go`) -/

/-- `webhook.Service` configuration. -/
structure Service where
  secret : String
  timeoutSec : Int
  retries : Int

/-- What `Dispatch` did: the webhooks it launched delivery workers for
(in list order) and the value of its `dispatchCount` counter.  The
function returns normally in every case — there is no error channel to
the caller. -/
structure DispatchResult where
  launched : List Webhook
  dispatchCount : Nat
deriving DecidableEq, Repr

/-- The dispatch loop body: skip a webhook unless `h.Enabled` and
`contains(h.Events, event)`; otherwise count it and launch a worker. -/
def dispatchLoop (event : String) : List Webhook → List Webhook
  | [] => []
  | h :: rest =>
    if !h.enabled || !contains h.events event then dispatchLoop event rest
    else h :: dispatchLoop event rest

/-- `Service.Dispatch`, with the two fallible collaborators reified:
`listOutcome` is the result of `s.Repo.List()` and `marshalOutcome` the
result of `json.Marshal` on the event envelope (`none` = error). -/
def Dispatch (listOutcome : Except Unit (List Webhook))
    (marshalOutcome : Option (List Nat)) (event : String) : DispatchResult :=
  match listOutcome with
  | .error _ => ⟨[], 0⟩
  | .ok hooks =>
    match marshalOutcome with
    | none => ⟨[], 0⟩
    | some _body =>
      let launched := dispatchLoop event hooks
      ⟨launched, launched.length⟩

/-- The outcome of one HTTP attempt by the delivery worker:
`client.Do` returned an error, or a response with the given status. -/
inductive AttemptResult where
  | transportError
  | status (code : Int)
deriving DecidableEq, Repr

/-- The success test in `deliver`: no transport error and a 2xx status. -/
def isSuccess : AttemptResult → Bool
  | .transportError => false
  | .status c => if 200 ≤ c ∧ c < 300 then true else false

/-- One outbound POST as the worker builds it. -/
structure HTTPRequest where
  url : String
  body : List Nat
  headers : List (String × String)
deriving DecidableEq, Repr

/-- Request construction inside the retry loop: JSON content type
always, the signature header only when a secret is configured. -/
def buildRequest (s : Service) (url : String) (body : List Nat) : HTTPRequest :=
  let hs := [("Content-Type", "application/json")]
  let hs := if s.secret != "" then
    hs ++ [("X-Webhook-Signature", hmacHex (strBytes s.secret) body)]
  else hs
  ⟨url, body, hs⟩

/-- The observable trace of one delivery worker: every request it
issued (in order), every backoff wait in milliseconds (in order), and
whether it ended in a successful delivery. -/
structure DeliverTrace where
  requests : List HTTPRequest
  waits : List Nat
  delivered : Bool
deriving DecidableEq, Repr

/-- The retry loop of `Service.deliver`, from iteration `attempt` with
`remaining` further iterations allowed (`remaining = retries - attempt`).
`respond` gives each attempt's outcome.  A 2xx response returns at once;
otherwise, when attempts remain, the worker sleeps
`(attempt+1) * 500ms` and retries. -/
def deliverAux (s : Service) (url : String) (body : List Nat)
    (respond : Nat → AttemptResult) (attempt : Nat) : Nat → DeliverTrace
  | 0 =>
    ⟨[buildRequest s url body], [], isSuccess (respond attempt)⟩
  | remaining + 1 =>
    if isSuccess (respond attempt) then ⟨[buildRequest s url body], [], true⟩
    else
      let rest := deliverAux s url body respond (attempt + 1) remaining
      ⟨buildRequest s url body :: rest.requests,
       (attempt + 1) * 500 :: rest.waits, rest.delivered⟩

/-- `Service.deliver`: retries clamped below at 0 (`Int.toNat` maps
negative configured values to 0, matching the source's guard), then the
loop `for attempt := 0; attempt <= retries; attempt++`. -/
def deliver (s : Service) (url : String) (body : List Nat)
    (respond : Nat → AttemptResult) : DeliverTrace :=
  deliverAux s url body respond 0 s.retries.toNat

/-! ## Webhook create handler
(`internal/api/handlers/webhooks.go`, `WebhookHandler.create`) -/

/-- What the create handler did: rejected the request with
`400 Bad Request`, or passed a `Webhook` value to `Repo.Create`. -/
inductive CreateOutcome where
  | badRequest
  | stored (hook : Webhook)
deriving DecidableEq, Repr

/-- `WebhookHandler.create`, with JSON decoding reified (`none` = the
body failed to decode).  The stored webhook is the argument passed to
`Repo.Create` (its `ID` is the Go zero value). -/
def createWebhook (decoded : Option WebhookDTO) : CreateOutcome :=
  match decoded with
  | none => .badRequest
  | some dto =>
    if dto.url == "" || dto.events.length == 0 then .badRequest
    else
      let enabled := if dto.enabled == false then true else dto.enabled
      .stored ⟨0, dto.url, dto.events, enabled⟩

/-! ## Concrete instances used by the scenario conjuncts and witnesses -/

/-- First lookup of a header by name, as an `Option` so that presence
and absence of the header are distinguishable. -/
def headerFind (hs : List (String × String)) (k : String) : Option String :=
  (hs.find? (fun p => p.1 == k)).map (fun p => p.2)

/-- Spec §8 scenario: policy `{admin_key: "abc123"}`, OIDC disabled,
no IP allowlist. -/
def scenarioPolicy : Auth :=
  { adminKey := "abc123", deviceKey := "", noAuthIPs := [], noAuthSubnets := [],
    oidcEnabled := false, oidcVerifier := none }

/-- Scenario request with the correct admin key header. -/
def scenarioReqOk : Request := ⟨"203.0.113.9:4444", [("X-Admin-Key", "abc123")]⟩

/-- Scenario request with a wrong admin key header. -/
def scenarioReqWrong : Request := ⟨"203.0.113.9:4444", [("X-Admin-Key", "wrong")]⟩

/-- Scenario request with no headers at all. -/
def scenarioReqNone : Request := ⟨"203.0.113.9:4444", []⟩

/-- A policy whose allowlist holds the literal IP `10.0.0.1` and the
subnet `192.168.0.0/16`, with no credentials configured. -/
def allowlistPolicy : Auth :=
  { adminKey := "secret-admin", deviceKey := "", noAuthIPs := [GoIP.v4 10 0 0 1],
    noAuthSubnets := [⟨[192, 168, 0, 0], [255, 255, 0, 0]⟩],
    oidcEnabled := false, oidcVerifier := none }

/-- A request from the allowlisted peer carrying only a wrong key. -/
def allowlistReq : Request := ⟨"10.0.0.1:51234", [("X-Admin-Key", "totally-wrong")]⟩

/-- A verifier that accepts exactly the token `"good"`, yielding a
token with no role claims anywhere. -/
def verifierEx : OIDCVerifier :=
  { adminRole := "fw-admin", deviceRole := "fw-device",
    verifyToken := fun tok => if tok == "good" then some ⟨none, []⟩ else none }

/-- A request presenting the bearer token `"good"`. -/
def reqJwtEx : Request := ⟨"198.51.100.7:1000", [("Authorization", "Bearer good")]⟩

/-- Spec §8 scenario webhook W1: enabled, subscribed to
`firmware.uploaded`. -/
def w1 : Webhook := ⟨1, "https://one.example/hook", ["firmware.uploaded"], true⟩

/-- Spec §8 scenario webhook W2: disabled, subscribed to
`firmware.uploaded`. -/
def w2 : Webhook := ⟨2, "https://two.example/hook", ["firmware.uploaded"], false⟩

/-- A delivery service with a configured secret and no retries. -/
def serviceEx : Service := ⟨"sek", 5, 0⟩

/-- A delivery service with 3 retries configured. -/
def serviceRetry3 : Service := ⟨"", 5, 3⟩

/-- An endpoint that answers 500 on every attempt. -/
def respondFailEx : Nat → AttemptResult := fun _ => .status 500

/-- An endpoint that answers 500 on the first attempt and 200 on the
second (0-based attempt index 1). -/
def respond200Second : Nat → AttemptResult :=
  fun i => if i == 1 then .status 200 else .status 500

/-- Example delivery target URL. -/
def urlEx : String := "https://sub.example/hook"

/-- Example serialized envelope body (the bytes of `"{}"`). -/
def bodyEx : List Nat := [123, 125]

/-- A create request body asking for a disabled webhook. -/
def dtoDisabled : WebhookDTO := ⟨9, "https://cb.example/h", ["firmware.uploaded"], false⟩

/-! ## Helper lemmas -/

/-- The dispatch loop keeps exactly the enabled webhooks subscribed to
the event, in order. -/
theorem dispatchLoop_eq_filter (event : String) (hooks : List Webhook) :
    dispatchLoop event hooks
      = hooks.filter (fun h => h.enabled && contains h.events event) := by
  induction hooks with
  | nil => rfl
  | cons h rest ih =>
    simp only [dispatchLoop, List.filter_cons]
    cases hE : h.enabled <;> cases hC : contains h.events event <;>
      simp [hE, hC, ih]

/-- Every request a delivery worker issues is the one built by
`buildRequest` from the service, URL and body. -/
theorem deliverAux_mem_requests (s : Service) (url : String) (body : List Nat)
    (respond : Nat → AttemptResult) (remaining attempt : Nat) (req : HTTPRequest)
    (h : req ∈ (deliverAux s url body respond attempt remaining).requests) :
    req = buildRequest s url body := by
  induction remaining generalizing attempt with
  | zero => simpa [deliverAux] using h
  | succ n ih =>
    cases hs : isSuccess (respond attempt) with
    | true => simpa [deliverAux, hs] using h
    | false =>
      simp only [deliverAux, hs, Bool.false_eq_true, if_false, List.mem_cons] at h
      rcases h with h | h
      · exact h
      · exact ih (attempt + 1) h

/-- A delivery worker always issues at least one request. -/
theorem deliverAux_requests_pos (s : Service) (url : String) (body : List Nat)
    (respond : Nat → AttemptResult) (remaining attempt : Nat) :
    0 < (deliverAux s url body respond attempt remaining).requests.length := by
  cases remaining with
  | zero => simp [deliverAux]
  | succ n => cases hs : isSuccess (respond attempt) <;> simp [deliverAux, hs]

/-- When every attempt fails, the worker issues `remaining + 1` requests
from any starting attempt and ends undelivered. -/
theorem deliverAux_allFail (s : Service) (url : String) (body : List Nat)
    (respond : Nat → AttemptResult)
    (hfail : ∀ i, isSuccess (respond i) = false) :
    ∀ remaining attempt,
      (deliverAux s url body respond attempt remaining).requests.length = remaining + 1 ∧
      (deliverAux s url body respond attempt remaining).delivered = false := by
  intro remaining
  induction remaining with
  | zero => intro attempt; simp [deliverAux, hfail attempt]
  | succ n ih =>
    intro attempt
    constructor
    · simp only [deliverAux, hfail attempt, Bool.false_eq_true, if_false,
        List.length_cons]
      have h1 := (ih (attempt + 1)).1
      omega
    · simp only [deliverAux, hfail attempt, Bool.false_eq_true, if_false]
      exact (ih (attempt + 1)).2

/-- When the first success is at attempt `k` within range, the worker
issues `k - attempt + 1` requests from `attempt` and ends delivered. -/
theorem deliverAux_firstSuccess (s : Service) (url : String) (body : List Nat)
    (respond : Nat → AttemptResult) :
    ∀ remaining attempt k, attempt ≤ k → k ≤ attempt + remaining →
      (∀ i, i < k → isSuccess (respond i) = false) →
      isSuccess (respond k) = true →
      (deliverAux s url body respond attempt remaining).requests.length = k - attempt + 1 ∧
      (deliverAux s url body respond attempt remaining).delivered = true := by
  intro remaining
  induction remaining with
  | zero =>
    intro attempt k h1 h2 _ hk
    have hek : k = attempt := by omega
    subst hek
    simp [deliverAux, hk]
  | succ n ih =>
    intro attempt k h1 h2 hlt hk
    by_cases he : attempt = k
    · subst he
      simp [deliverAux, hk]
    · have hfa : isSuccess (respond attempt) = false := hlt attempt (by omega)
      have hrest := ih (attempt + 1) k (by omega) (by omega) hlt hk
      constructor
      · simp only [deliverAux, hfa, Bool.false_eq_true, if_false, List.length_cons]
        have hr1 := hrest.1
        omega
      · simp only [deliverAux, hfa, Bool.false_eq_true, if_false]
        exact hrest.2

/-- The waits a worker performs are `(attempt+1)*500, (attempt+2)*500, …`,
one fewer than the requests it issues. -/
theorem deliverAux_waits (s : Service) (url : String) (body : List Nat)
    (respond : Nat → AttemptResult) :
    ∀ remaining attempt,
      (deliverAux s url body respond attempt remaining).waits
        = (List.range ((deliverAux s url body respond attempt remaining).requests.length - 1)).map
            (fun i => (attempt + i + 1) * 500) := by
  intro remaining
  induction remaining with
  | zero => intro attempt; simp [deliverAux]
  | succ n ih =>
    intro attempt
    cases hs : isSuccess (respond attempt) with
    | true => simp [deliverAux, hs]
    | false =>
      have hpos := deliverAux_requests_pos s url body respond n (attempt + 1)
      obtain ⟨m, hm⟩ : ∃ m,
          (deliverAux s url body respond (attempt + 1) n).requests.length = m + 1 :=
        ⟨(deliverAux s url body respond (attempt + 1) n).requests.length - 1, by omega⟩
      simp only [deliverAux, hs, Bool.false_eq_true, if_false, List.length_cons]
      rw [ih (attempt + 1), hm, Nat.add_sub_cancel, Nat.add_sub_cancel,
        List.range_succ_eq_map, List.map_cons, List.map_map]
      simp only [List.cons.injEq, Nat.add_zero, true_and]
      apply List.map_congr_left
      intro i _
      simp only [Function.comp_apply]
      omega

/-! ## Claim theorems -/

/-- Claim C5: a delivery worker is launched for a webhook iff its
enabled flag is true and the event is in its subscribed set; ineligible
webhooks get no delivery attempt and are not counted.  With W1 enabled
and W2 disabled, both subscribed to `firmware.uploaded`, dispatch
delivers to W1 only. -/
theorem dispatch_eligibility (hooks : List Webhook) (event : String) (body : List Nat) :
    (Dispatch (.ok hooks) (some body) event).launched
        = hooks.filter (fun h => h.enabled && contains h.events event) ∧
    (∀ h, h ∈ (Dispatch (.ok hooks) (some body) event).launched ↔
        h ∈ hooks ∧ (h.enabled && contains h.events event) = true) ∧
    (Dispatch (.ok hooks) (some body) event).dispatchCount
        = (hooks.filter (fun h => h.enabled && contains h.events event)).length ∧
    (Dispatch (.ok [w1, w2]) (some body) "firmware.uploaded").launched = [w1] ∧
    (Dispatch (.ok [w1, w2]) (some body) "firmware.uploaded").dispatchCount = 1 := by
  refine ⟨?_, ?_, ?_, ?_, ?_⟩
  · simp [Dispatch, dispatchLoop_eq_filter]
  · intro h
    simp [Dispatch, dispatchLoop_eq_filter, List.mem_filter]
  · simp [Dispatch, dispatchLoop_eq_filter]
  · rfl
  · rfl

/-- Claim C9: a failed subscription listing or a failed envelope
serialization makes `Dispatch` launch zero workers and return normally
(its result type has no error channel to the caller), and with zero
eligible webhooks dispatch is a no-op. -/
theorem dispatch_abandons_silently (event : String) (hooks : List Webhook) (body : List Nat) :
    Dispatch (.error ()) (some body) event = ⟨[], 0⟩ ∧
    Dispatch (.ok hooks) none event = ⟨[], 0⟩ ∧
    (hooks.filter (fun h => h.enabled && contains h.events event) = [] →
      Dispatch (.ok hooks) (some body) event = ⟨[], 0⟩) := by
  refine ⟨rfl, rfl, fun hnone => ?_⟩
  simp [Dispatch, dispatchLoop_eq_filter, hnone]

/-- Witness for C9 at a concrete input: one disabled webhook in the
list, so dispatch launches nothing. -/
theorem dispatch_abandons_silently_witness :
    [w2].filter (fun h => h.enabled && contains h.events "firmware.uploaded") = [] ∧
    Dispatch (.ok [w2]) (some bodyEx) "firmware.uploaded" = ⟨[], 0⟩ :=
  ⟨by decide, (dispatch_abandons_silently "firmware.uploaded" [w2] bodyEx).2.2 (by decide)⟩

/-- Claim C10: every webhook accepted by the create endpoint is stored
with `enabled = true` — the handler overwrites `enabled: false` from the
request body, so a disabled webhook cannot be created. -/
theorem create_forces_enabled (dto : WebhookDTO)
    (hurl : dto.url ≠ "") (hev : dto.events ≠ []) :
    createWebhook (some dto) = .stored ⟨0, dto.url, dto.events, true⟩ := by
  have hu : (dto.url == "") = false := by
    simpa using hurl
  have hl : (dto.events.length == 0) = false := by
    simp [List.length_eq_zero, hev]
  simp only [createWebhook, hu, hl, Bool.or_self, Bool.false_or, if_false]
  cases hen : dto.enabled <;> simp [hen]

/-- Witness for C10: a create request explicitly asking for
`enabled: false` is stored enabled. -/
theorem create_forces_enabled_witness :
    dtoDisabled.url ≠ "" ∧ dtoDisabled.events ≠ [] ∧
    createWebhook (some dtoDisabled)
      = .stored ⟨0, dtoDisabled.url, dtoDisabled.events, true⟩ :=
  ⟨by decide, by decide, create_forces_enabled dtoDisabled (by decide) (by decide)⟩

/-- Claim C6: every request a delivery attempt sends carries the
`X-Webhook-Signature` header iff a non-empty service-wide secret is
configured; when present its value is `hex(HMAC-SHA256(secret, body))`
over exactly the bytes used as the request body, and with no secret the
header is absent. -/
theorem delivery_signature_header (s : Service) (url : String) (body : List Nat)
    (respond : Nat → AttemptResult) (req : HTTPRequest)
    (hreq : req ∈ (deliver s url body respond).requests) :
    req.body = body ∧
    (s.secret ≠ "" →
      headerFind req.headers "X-Webhook-Signature"
        = some (hexEncode (hmacSha256 (strBytes s.secret) req.body))) ∧
    (s.secret = "" → headerFind req.headers "X-Webhook-Signature" = none) := by
  have heq := deliverAux_mem_requests s url body respond s.retries.toNat 0 req hreq
  subst heq
  refine ⟨rfl, ?_, ?_⟩
  · intro hne
    have hb : (s.secret != "") = true := bne_iff_ne.mpr hne
    simp [buildRequest, headerFind, hb, hmacHex]
  · intro he
    have hb : (s.secret != "") = false := by simp [he]
    simp [buildRequest, headerFind, hb]

/-- Witness for C6: with the secret `"sek"` configured, the single
request of a failing delivery carries the signature header computed over
its own body bytes. -/
theorem delivery_signature_header_witness :
    buildRequest serviceEx urlEx bodyEx ∈ (deliver serviceEx urlEx bodyEx respondFailEx).requests ∧
    serviceEx.secret ≠ "" ∧
    (buildRequest serviceEx urlEx bodyEx).body = bodyEx ∧
    headerFind (buildRequest serviceEx urlEx bodyEx).headers "X-Webhook-Signature"
      = some (hexEncode (hmacSha256 (strBytes serviceEx.secret)
          (buildRequest serviceEx urlEx bodyEx).body)) := by
  have hmem : buildRequest serviceEx urlEx bodyEx
      ∈ (deliver serviceEx urlEx bodyEx respondFailEx).requests := by
    show buildRequest serviceEx urlEx bodyEx ∈ [buildRequest serviceEx urlEx bodyEx]
    exact List.mem_singleton.mpr rfl
  have h := delivery_signature_header serviceEx urlEx bodyEx respondFailEx _ hmem
  exact ⟨hmem, by decide, h.1, h.2.1 (by decide)⟩

/-- Claim C7: an endpoint failing on every attempt receives exactly
`retries + 1` requests and the worker then terminates undelivered; an
endpoint first succeeding on attempt `k` (0-based) receives exactly
`k + 1` requests.  In particular a 200 on the second attempt gives
exactly 2 requests and no third. -/
theorem delivery_attempt_counts (s : Service) (url : String) (body : List Nat)
    (respond : Nat → AttemptResult) :
    ((∀ i, isSuccess (respond i) = false) →
      (deliver s url body respond).requests.length = s.retries.toNat + 1 ∧
      (deliver s url body respond).delivered = false) ∧
    (∀ k, k ≤ s.retries.toNat →
      (∀ i, i < k → isSuccess (respond i) = false) →
      isSuccess (respond k) = true →
      (deliver s url body respond).requests.length = k + 1 ∧
      (deliver s url body respond).delivered = true) ∧
    (deliver serviceRetry3 urlEx bodyEx respond200Second).requests.length = 2 ∧
    (deliver serviceRetry3 urlEx bodyEx respond200Second).delivered = true := by
  refine ⟨?_, ?_, rfl, rfl⟩
  · intro hfail
    exact deliverAux_allFail s url body respond hfail s.retries.toNat 0
  · intro k hk hlt hsk
    have h := deliverAux_firstSuccess s url body respond s.retries.toNat 0 k
      (Nat.zero_le k) (by omega) hlt hsk
    simpa using h

/-- Witness for C7: the all-fail endpoint with 3 retries configured
receives exactly 4 requests. -/
theorem delivery_attempt_counts_witness :
    (∀ i, isSuccess (respondFailEx i) = false) ∧
    (deliver serviceRetry3 urlEx bodyEx respondFailEx).requests.length
      = serviceRetry3.retries.toNat + 1 ∧
    (deliver serviceRetry3 urlEx bodyEx respondFailEx).delivered = false := by
  have hfail : ∀ i, isSuccess (respondFailEx i) = false := fun i => rfl
  have h := (delivery_attempt_counts serviceRetry3 urlEx bodyEx respondFailEx).1 hfail
  exact ⟨hfail, h.1, h.2⟩

/-- Claim C8: the wait after the failed attempt with 0-based index `i`
is exactly `(i + 1) * 500` milliseconds, so the waits are 500ms, 1000ms,
1500ms, …, strictly increasing linearly, with one fewer wait than
requests (no wait after the final attempt). -/
theorem delivery_backoff_linear (s : Service) (url : String) (body : List Nat)
    (respond : Nat → AttemptResult) :
    (deliver s url body respond).waits
      = (List.range ((deliver s url body respond).requests.length - 1)).map
          (fun i => (i + 1) * 500) ∧
    (deliver s url body respond).waits.length
      = (deliver s url body respond).requests.length - 1 ∧
    List.Pairwise (· < ·) (deliver s url body respond).waits := by
  have h : (deliver s url body respond).waits
      = (List.range ((deliver s url body respond).requests.length - 1)).map
          (fun i => (i + 1) * 500) := by
    have ha := deliverAux_waits s url body respond s.retries.toNat 0
    simp only [Nat.zero_add] at ha
    exact ha
  refine ⟨h, ?_, ?_⟩
  · rw [h]
    simp
  · rw [h]
    refine List.Pairwise.map _ ?_ (List.pairwise_lt_range _)
    intro a b hab
    omega

/-! ### Access-gate claim theorems -/

/-- If the parsed client IP matches an allowlist entry or subnet, the
whitelist check passes. -/
theorem isIPWhitelisted_of_match (a : Auth) (addr : String) (ip : GoIP)
    (hp : parseIP (whitelistHost addr) = some ip)
    (hm : (∃ al ∈ a.noAuthIPs, ipEqual ip al = true) ∨
          (∃ sn ∈ a.noAuthSubnets, ipnetContains sn ip = true)) :
    isIPWhitelisted a addr = true := by
  have hne : (a.noAuthIPs.isEmpty && a.noAuthSubnets.isEmpty) = false := by
    rcases hm with ⟨al, hmem, _⟩ | ⟨sn, hmem, _⟩
    · cases hl : a.noAuthIPs with
      | nil => rw [hl] at hmem; exact absurd hmem (List.not_mem_nil al)
      | cons x xs => rfl
    · cases hl : a.noAuthSubnets with
      | nil => rw [hl] at hmem; exact absurd hmem (List.not_mem_nil sn)
      | cons x xs => simp
  simp only [isIPWhitelisted, hne, Bool.false_eq_true, if_false, hp]
  rcases hm with ⟨al, hmem, hal⟩ | ⟨sn, hmem, hsn⟩
  · have hany : a.noAuthIPs.any (fun allowedIP => ipEqual ip allowedIP) = true :=
      List.any_eq_true.mpr ⟨al, hmem, hal⟩
    simp [hany]
  · cases hips : a.noAuthIPs.any (fun allowedIP => ipEqual ip allowedIP) with
    | true => simp
    | false =>
      simp only [Bool.false_eq_true, if_false]
      exact List.any_eq_true.mpr ⟨sn, hmem, hsn⟩

/-- If the parsed client IP matches no allowlist entry and no subnet,
the whitelist check fails. -/
theorem isIPWhitelisted_eq_false_of_nomatch (a : Auth) (addr : String) (ip : GoIP)
    (hp : parseIP (whitelistHost addr) = some ip)
    (h1 : ∀ al ∈ a.noAuthIPs, ipEqual ip al = false)
    (h2 : ∀ sn ∈ a.noAuthSubnets, ipnetContains sn ip = false) :
    isIPWhitelisted a addr = false := by
  cases hg : (a.noAuthIPs.isEmpty && a.noAuthSubnets.isEmpty) with
  | true => simp [isIPWhitelisted, hg]
  | false =>
    have hips : a.noAuthIPs.any (fun allowedIP => ipEqual ip allowedIP) = false := by
      rw [List.any_eq_false]
      intro x hx
      simp [h1 x hx]
    have hsns : a.noAuthSubnets.any (fun subnet => ipnetContains subnet ip) = false := by
      rw [List.any_eq_false]
      intro x hx
      simp [h2 x hx]
    simp [isIPWhitelisted, hg, hp, hips, hsns]

/-- Claim C1: a peer whose address parses to an IP equal to a configured
literal entry (family-aware equality) or inside a configured CIDR subnet
passes both gates regardless of any credential headers; a peer matching
no configured entry is never authorized by the IP-bypass strategy. -/
theorem ip_allowlist_full_bypass (a : Auth) (r : Request) (ip : GoIP)
    (hp : parseIP (whitelistHost r.remoteAddr) = some ip) :
    (((∃ al ∈ a.noAuthIPs, ipEqual ip al = true) ∨
      (∃ sn ∈ a.noAuthSubnets, ipnetContains sn ip = true)) →
      RequireAdmin a r = .next ∧ RequireDevice a r = .next) ∧
    ((∀ al ∈ a.noAuthIPs, ipEqual ip al = false) →
     (∀ sn ∈ a.noAuthSubnets, ipnetContains sn ip = false) →
      isIPWhitelisted a r.remoteAddr = false) := by
  constructor
  · intro hm
    have hw := isIPWhitelisted_of_match a r.remoteAddr ip hp hm
    exact ⟨by simp [RequireAdmin, hw], by simp [RequireDevice, hw]⟩
  · exact isIPWhitelisted_eq_false_of_nomatch a r.remoteAddr ip hp

/-- Witness for C1: the peer `10.0.0.1:51234` matches the configured
literal entry `10.0.0.1` and bypasses both gates while presenting only a
wrong admin key. -/
theorem ip_allowlist_full_bypass_witness :
    parseIP (whitelistHost allowlistReq.remoteAddr) = some (GoIP.v4 10 0 0 1) ∧
    GoIP.v4 10 0 0 1 ∈ allowlistPolicy.noAuthIPs ∧
    ipEqual (GoIP.v4 10 0 0 1) (GoIP.v4 10 0 0 1) = true ∧
    RequireAdmin allowlistPolicy allowlistReq = .next ∧
    RequireDevice allowlistPolicy allowlistReq = .next := by
  have hp : parseIP (whitelistHost allowlistReq.remoteAddr) = some (GoIP.v4 10 0 0 1) := by
    decide
  have h := (ip_allowlist_full_bypass allowlistPolicy allowlistReq (GoIP.v4 10 0 0 1) hp).1
    (Or.inl ⟨GoIP.v4 10 0 0 1, by decide, by decide⟩)
  exact ⟨hp, by decide, by decide, h.1, h.2⟩

/-- Claim C2: the gate tries IP allowlist, then JWT (only when OIDC is
enabled with a verifier), then the static role key (only when configured
non-empty), short-circuiting on the first success; when all configured
strategies fail it answers 401 and the protected handler never runs
(`GateResult.unauthorized`).  Scenario: policy `{admin_key: "abc123"}`,
OIDC disabled, no allowlist — the right key passes, a wrong key and a
bare request are denied. -/
theorem gate_strategy_order_and_default_deny :
    (∀ a r, isIPWhitelisted a r.remoteAddr = true →
        RequireAdmin a r = .next ∧ RequireDevice a r = .next) ∧
    (∀ a r, isIPWhitelisted a r.remoteAddr = false → adminJWTOk a r = true →
        RequireAdmin a r = .next) ∧
    (∀ a r, isIPWhitelisted a r.remoteAddr = false → adminJWTOk a r = false →
        (a.adminKey != "" && (headerGet r.headers "X-Admin-Key" == a.adminKey)) = true →
        RequireAdmin a r = .next) ∧
    (∀ a r, isIPWhitelisted a r.remoteAddr = false → adminJWTOk a r = false →
        (a.adminKey != "" && (headerGet r.headers "X-Admin-Key" == a.adminKey)) = false →
        RequireAdmin a r = .unauthorized) ∧
    (∀ a r, isIPWhitelisted a r.remoteAddr = false → deviceJWTOk a r = false →
        (a.deviceKey != "" && (headerGet r.headers "X-Device-Key" == a.deviceKey)) = false →
        RequireDevice a r = .unauthorized) ∧
    RequireAdmin scenarioPolicy scenarioReqOk = .next ∧
    RequireAdmin scenarioPolicy scenarioReqWrong = .unauthorized ∧
    RequireAdmin scenarioPolicy scenarioReqNone = .unauthorized := by
  refine ⟨?_, ?_, ?_, ?_, ?_, by decide, by decide, by decide⟩
  · intro a r h
    exact ⟨by simp [RequireAdmin, h], by simp [RequireDevice, h]⟩
  · intro a r h1 h2
    simp [RequireAdmin, h1, h2]
  · intro a r h1 h2 h3
    simp [RequireAdmin, h1, h2, h3]
  · intro a r h1 h2 h3
    simp [RequireAdmin, h1, h2, h3]
  · intro a r h1 h2 h3
    simp [RequireDevice, h1, h2, h3]

/-- Witness for C2: on the wrong-key scenario request, every strategy
fails and the gate denies. -/
theorem gate_strategy_order_witness :
    isIPWhitelisted scenarioPolicy scenarioReqWrong.remoteAddr = false ∧
    adminJWTOk scenarioPolicy scenarioReqWrong = false ∧
    (scenarioPolicy.adminKey != ""
      && (headerGet scenarioReqWrong.headers "X-Admin-Key" == scenarioPolicy.adminKey)) = false ∧
    RequireAdmin scenarioPolicy scenarioReqWrong = .unauthorized := by
  refine ⟨by decide, ?_, by decide, ?_⟩
  · rfl
  · exact gate_strategy_order_and_default_deny.2.2.2.1 scenarioPolicy scenarioReqWrong
      (by decide) (by rfl) (by decide)

/-- Claim C3: a peer address whose host part (after port stripping when
present) does not parse as an IP never passes the whitelist check, for
any configured allowlist — malformed peers fail closed. -/
theorem malformed_peer_fails_closed (a : Auth) (addr : String)
    (hp : parseIP (whitelistHost addr) = none) :
    isIPWhitelisted a addr = false := by
  cases hg : (a.noAuthIPs.isEmpty && a.noAuthSubnets.isEmpty) with
  | true => simp [isIPWhitelisted, hg]
  | false => simp [isIPWhitelisted, hg, hp]

/-- Witness for C3: the peer `not-an-ip:80` does not parse and is not
whitelisted even under a non-empty allowlist. -/
theorem malformed_peer_fails_closed_witness :
    parseIP (whitelistHost "not-an-ip:80") = none ∧
    isIPWhitelisted allowlistPolicy "not-an-ip:80" = false :=
  ⟨by decide, malformed_peer_fails_closed allowlistPolicy "not-an-ip:80" (by decide)⟩

/-- Claim C4: when the required role is the empty string, any bearer
token that passes verification is accepted by `verifyJWT` regardless of
which role claims the token carries (`t` is arbitrary). -/
theorem empty_required_role_accepts (v : OIDCVerifier) (r : Request) (t : IDToken)
    (htok : ExtractBearerToken (headerGet r.headers "Authorization") ≠ "")
    (hver : v.verifyToken (ExtractBearerToken (headerGet r.headers "Authorization")) = some t) :
    verifyJWT v r "" = true := by
  have hah : headerGet r.headers "Authorization" ≠ "" := by
    intro h
    apply htok
    rw [h]
    rfl
  have h1 : (headerGet r.headers "Authorization" == "") = false :=
    beq_eq_false_iff_ne.mpr hah
  have h2 : (ExtractBearerToken (headerGet r.headers "Authorization") == "") = false :=
    beq_eq_false_iff_ne.mpr htok
  simp only [verifyJWT, h1, Bool.false_eq_true, if_false, h2, hver]
  simp

/-- Witness for C4: the verifier accepts the token `"good"`, whose
claims carry no roles at all, and the empty required role admits it. -/
theorem empty_required_role_accepts_witness :
    ExtractBearerToken (headerGet reqJwtEx.headers "Authorization") ≠ "" ∧
    verifierEx.verifyToken (ExtractBearerToken (headerGet reqJwtEx.headers "Authorization"))
      = some ⟨none, []⟩ ∧
    verifyJWT verifierEx reqJwtEx "" = true := by
  refine ⟨by decide, by rfl, ?_⟩
  exact empty_required_role_accepts verifierEx reqJwtEx ⟨none, []⟩ (by decide) (by rfl)

end FwReg

